import Mathlib

/-!
Verification of the `up_local csv playlists` plugin (`run`, lines 50-149 of
`src/ultrasonics/official_plugins/up_local csv playlists.py`).

The Python code is shallowly embedded: the filesystem is an explicit tree of
entries, Python strings are Lean `String`s manipulated through their character
lists, Python exceptions become `Except`, and the logging collaborator becomes
an accumulated list of log events.  The external `name_filter.filter_list`
collaborator (not part of the shown sources) and the output-side writer
(described only in the module docstring and design comment) are modelled from
the specification, and are marked as such in their doc comments.
-/

namespace UpLocalCsv

/-- A song record: four fixed fields mapped positionally from a delimited row
(columns 0-3), as built in the input loop of `run`. -/
structure SongRecord where
  artist : String
  title : String
  album : String
  isrc : String
deriving DecidableEq, Repr

/-- One playlist of the songs dict exchanged with the orchestration layer:
`{"name": ..., "id": {}, "songs": [...]}`.  The `id` mapping is always set to
the empty dict by the input loop, modelled as an association list. -/
structure PlaylistEntry where
  name : String
  id : List (String × String)
  songs : List SongRecord
deriving DecidableEq, Repr

/-- A filesystem entry: a regular file with a name and contents, or a
directory with a name and children.  A file whose `content` is `none` exists
but cannot be opened/decoded (`io.open`/UTF-8 decoding would raise). -/
inductive Entry where
  | file (name : String) (content : Option String)
  | dir (name : String) (entries : List Entry)
deriving Repr

/-- The name of a filesystem entry, as `os.listdir` would report it. -/
def Entry.name : Entry → String
  | .file n _ => n
  | .dir n _ => n

mutual

/-- Decidable equality for filesystem entries (the `deriving` handler does
not support this nested inductive). -/
def decEqE : (a b : Entry) → Decidable (a = b)
  | .file n c, .file n' c' => decidable_of_iff (n = n' ∧ c = c') (by simp)
  | .file _ _, .dir _ _ => isFalse (fun h => Entry.noConfusion h)
  | .dir _ _, .file _ _ => isFalse (fun h => Entry.noConfusion h)
  | .dir n es, .dir n' es' =>
      have : Decidable (es = es') := decEqL es es'
      decidable_of_iff (n = n' ∧ es = es') (by simp)

/-- Decidable equality for lists of filesystem entries. -/
def decEqL : (a b : List Entry) → Decidable (a = b)
  | [], [] => isTrue rfl
  | [], _ :: _ => isFalse (fun h => List.noConfusion h)
  | _ :: _, [] => isFalse (fun h => List.noConfusion h)
  | a :: as, b :: bs =>
      have h1 : Decidable (a = b) := decEqE a b
      have h2 : Decidable (as = bs) := decEqL as bs
      decidable_of_iff (a = b ∧ as = bs) (by simp)

end

instance : DecidableEq Entry := decEqE

/-- A playlist candidate produced by the discovery phase: the dictionary
`{"name": splitext(item)[0], "path": join(root-or-path, item)}`. -/
structure Candidate where
  name : String
  path : String
deriving DecidableEq, Repr

/-- A message recorded through the logging collaborator (`log.info` /
`log.error`). -/
inductive LogEvent where
  | info (msg : String)
  | error (msg : String)
deriving DecidableEq, Repr

/-- A Python exception escaping `run` uncaught. -/
inductive PyErr where
  | ioError (path : String)
  | indexError
deriving DecidableEq, Repr

/-- The settings bundle for this plugin: `settings_dict["dir"]`,
`settings_dict["recursive"]` (the strings "Yes"/"No") and
`settings_dict["filter"]`. -/
structure SettingsDict where
  dir : String
  recursive : String
  filter : String
deriving DecidableEq, Repr

/-! ## Python string / path primitives -/

/-- Python `s.rstrip(c)` for a single-character strip set: remove every
trailing occurrence of `c`. -/
def pyRstrip (s : String) (c : Char) : String :=
  String.mk ((s.data.reverse.dropWhile (fun x => x == c)).reverse)

/-- The path normalization of line 76:
`settings_dict["dir"].rstrip("/").rstrip("\\")` — strip all trailing forward
slashes, then all trailing backslashes. -/
def normPath (d : String) : String :=
  pyRstrip (pyRstrip d '/') '\\'

/-- Python `os.path.join(a, b)` with POSIX separators (the code runs under
`posixpath`): `a ++ "/" ++ b`. -/
def pjoin (a b : String) : String :=
  a ++ "/" ++ b

/-- The extension part of `os.path.splitext`, computed from the reversed
basename (the characters after the last `/`): the extension starts at the
last dot of the basename, unless every character of the basename before that
dot is itself a dot (so `.bashrc` has no extension). -/
def extRevBase (br : List Char) : List Char :=
  let e := br.takeWhile (fun c => c != '.')
  if e.length = br.length then []
  else if (br.drop (e.length + 1)).any (fun c => c != '.') then '.' :: e.reverse
  else []

/-- Python `os.path.splitext(s)[1]`: the final extension of `s` (empty if none). -/
def extOf (s : String) : String :=
  String.mk (extRevBase (s.data.reverse.takeWhile (fun c => c != '/')))

/-- Python `os.path.splitext(s)[0]`: `s` with its final extension removed. -/
def stem (s : String) : String :=
  String.mk (s.data.take (s.data.length - (extOf s).data.length))

/-! ## Discovery (lines 82-106) -/

/-- The supported playlist extension set (module constant). -/
def supported_playlist_extensions : List String := [".csv"]

/-- The regular files among a directory's entries, in listing order, with
their contents — the `files` component of one `os.walk` triple. -/
def filesOf : List Entry → List (String × Option String)
  | [] => []
  | .file n c :: rest => (n, c) :: filesOf rest
  | .dir _ _ :: rest => filesOf rest

/-- The candidate for one discovered item: name is the filename without its
extension, path is the join of the enclosing directory and the filename. -/
def mkCand (root : String) (item : String) : Candidate :=
  ⟨stem item, pjoin root item⟩

mutual

/-- The candidates contributed by one entry to the `os.walk` traversal below
the top directory: a file contributes nothing here (it was already listed
with its own directory), a subdirectory contributes its files and then,
recursively, its subdirectories' contributions. -/
def entryWalk (root : String) : Entry → List Candidate
  | .file _ _ => []
  | .dir n sub =>
      (filesOf sub).map (fun f => mkCand (pjoin root n) f.1)
        ++ walkSub (pjoin root n) sub

/-- The candidates contributed by the subdirectories of a directory during
`os.walk` (top-down): for each subdirectory in listing order, its own files
first, then its subdirectories recursively. -/
def walkSub (root : String) : List Entry → List Candidate
  | [] => []
  | e :: rest => entryWalk root e ++ walkSub root rest

end

/-- Recursive-mode discovery: `for root, _, files in os.walk(path)`, appending
a candidate for every file of every visited directory, top-down. -/
def walkCands (root : String) (es : List Entry) : List Candidate :=
  (filesOf es).map (fun f => mkCand root f.1) ++ walkSub root es

/-- Non-recursive-mode discovery: `os.listdir(path)` lists every immediate
entry (files and directories alike), and each becomes a candidate. -/
def listdirCands (root : String) (es : List Entry) : List Candidate :=
  es.map (fun e => mkCand root e.name)

mutual

/-- The files at any depth inside one entry, keyed by full joined path. -/
def entryFiles (root : String) : Entry → List (String × Option String)
  | .file n c => [(pjoin root n, c)]
  | .dir n sub => allFiles (pjoin root n) sub

/-- Every file at any depth under a directory, keyed by its full joined path
— how the operating system resolves a path at `io.open` time. -/
def allFiles (root : String) : List Entry → List (String × Option String)
  | [] => []
  | e :: rest => entryFiles root e ++ allFiles root rest

end

/-- Resolve a path against the filesystem: `some (some s)` is a readable file
with content `s`, `some none` an unreadable/undecodable file, `none` no
regular file at that path (e.g. a directory, which `io.open` rejects). -/
def openFile (fs : Option (List Entry)) (root : String) (p : String) :
    Option (Option String) :=
  match fs with
  | none => none
  | some es => ((allFiles root es).find? (fun f => f.1 == p)).map (fun f => f.2)

/-- The discovery phase of `run` (the `try`/`except` block, lines 82-102):
in recursive mode `os.walk` swallows a failure to open the directory (its
default `onerror=None` ignores the error), yielding no triples and logging
nothing; in non-recursive mode `os.listdir` raises, the `except` clause
catches it and `log.error(e)` records it, leaving `playlists` empty. -/
def discoverCandidates (recursive : String) (path : String)
    (fs : Option (List Entry)) : List Candidate × List LogEvent :=
  if recursive = "Yes" then
    match fs with
    | none => ([], [])
    | some es => (walkCands path es, [])
  else
    match fs with
    | none => ([], [LogEvent.error "listdir failed"])
    | some es => (listdirCands path es, [])

/-- The extension filter (lines 104-106): keep only candidates whose path has
a supported final extension. -/
def extFilter (cs : List Candidate) : List Candidate :=
  cs.filter (fun c => supported_playlist_extensions.contains (extOf c.path))

/-- Discovery followed by the extension filter, as `run` performs for both
component roles and both recursion modes. -/
def discoverFiltered (recursive : String) (path : String)
    (fs : Option (List Entry)) : List Candidate :=
  extFilter (discoverCandidates recursive path fs).1

/-! ## CSV parsing (lines 133-144) -/

/-- The parser state of `csv.reader`'s default dialect: at the start of a
row, at the start of a later field, inside an unquoted field, inside a
quoted field, or just after a quote character seen inside a quoted field
(which may close the field or, doubled, stand for a literal quote). -/
inductive CsvState where
  | rowStart
  | fieldStart
  | inField
  | inQuoted
  | quoteInQuoted

/-- The row-reading state machine of `csv.reader` with its default dialect
(`delimiter=','`, `quotechar='"'`, `doublequote=True`, `strict=False`):
a field beginning with `"` enters quoted mode, where delimiters and newlines
are literal and `""` stands for one quote; after the closing quote a stray
character falls back (non-strict) to an unquoted field; a quote inside an
unquoted field is literal; a blank line yields an empty row; end of data
inside a field emits it (non-strict), end of data at a row boundary emits
nothing.  `f` is the field and `r` the row accumulated so far. -/
def csvScan (s : CsvState) (f : List Char) (r : List (List Char)) :
    List Char → List (List (List Char))
  | [] =>
      match s with
      | .rowStart => []
      | _ => [r ++ [f]]
  | c :: cs =>
      match s with
      | .rowStart =>
          if c = '\n' then [] :: csvScan .rowStart [] [] cs
          else if c = ',' then csvScan .fieldStart [] (r ++ [[]]) cs
          else if c = '"' then csvScan .inQuoted [] r cs
          else csvScan .inField [c] r cs
      | .fieldStart =>
          if c = '\n' then (r ++ [[]]) :: csvScan .rowStart [] [] cs
          else if c = ',' then csvScan .fieldStart [] (r ++ [[]]) cs
          else if c = '"' then csvScan .inQuoted [] r cs
          else csvScan .inField [c] r cs
      | .inField =>
          if c = '\n' then (r ++ [f]) :: csvScan .rowStart [] [] cs
          else if c = ',' then csvScan .fieldStart [] (r ++ [f]) cs
          else csvScan .inField (f ++ [c]) r cs
      | .inQuoted =>
          if c = '"' then csvScan .quoteInQuoted f r cs
          else csvScan .inQuoted (f ++ [c]) r cs
      | .quoteInQuoted =>
          if c = '"' then csvScan .inQuoted (f ++ ['"']) r cs
          else if c = '\n' then (r ++ [f]) :: csvScan .rowStart [] [] cs
          else if c = ',' then csvScan .fieldStart [] (r ++ [f]) cs
          else csvScan .inField (f ++ [c]) r cs

/-- The rows `csv.reader(csvFile, delimiter=',')` yields for a whole file
content, `s` being the decoded text after `io.open`'s universal-newline
translation (so row separators are `'\n'`). -/
def csvRows (s : String) : List (List (List Char)) :=
  csvScan .rowStart [] [] s.data

/-- One iteration of the row loop (lines 136-141): positional extraction
`songRow[0] .. songRow[3]`; a row with fewer than four columns raises an
uncaught `IndexError`. -/
def parseSongRow (row : List (List Char)) : Except PyErr SongRecord :=
  match row with
  | a :: t :: al :: i :: _ =>
      .ok ⟨String.mk a, String.mk t, String.mk al, String.mk i⟩
  | _ => .error .indexError

/-- Parse a whole playlist file's content through the row loop, aborting at
the first malformed row exactly as the uncaught `IndexError` would. -/
def parseFileSongs (content : String) : Except PyErr (List SongRecord) :=
  (csvRows content).mapM parseSongRow

/-! ## Name filter (external collaborator) -/

/-- Modelled from the spec: `name_filter.filter_list` (an external tool whose
source is not shown) returns the subset of `names` matching `pattern` as a
regular expression, and an empty pattern matches everything.  The regex
matcher itself is abstracted as a `matcher` argument. -/
def filter_list (matcher : String → String → Bool) (names : List String)
    (pattern : String) : List String :=
  if pattern = "" then names else names.filter (fun n => matcher pattern n)

/-! ## The run function (lines 50-149) -/

/-- Processing of one discovered playlist in the input branch (lines
123-147): reopen the candidate's path, read its rows, and build the songs
dict entry with an empty `id` mapping.  An open/decode failure or a short
row raises. -/
def processOne (fs : Option (List Entry)) (root : String) (c : Candidate) :
    Except PyErr PlaylistEntry :=
  match openFile fs root c.path with
  | none => .error (.ioError c.path)
  | some none => .error (.ioError c.path)
  | some (some content) =>
      (parseFileSongs content).map (fun songs => ⟨c.name, [], songs⟩)

/-- The input-branch loop over all surviving playlists; any raised exception
propagates and aborts the whole run. -/
def processPlaylists (fs : Option (List Entry)) (root : String)
    (cs : List Candidate) : Except PyErr (List PlaylistEntry) :=
  cs.mapM (processOne fs root)

/-- The state `run` finishes in when no exception escapes: the filesystem
(this `run` never writes, so it is threaded through unchanged), the log
events recorded, and the returned value (`some` songs dict for the input
branch, `none` — Python `None` — otherwise). -/
structure RunOutput where
  fs : Option (List Entry)
  log : List LogEvent
  result : Option (List PlaylistEntry)
deriving DecidableEq, Repr

instance exceptDecEq {e a : Type} [DecidableEq e] [DecidableEq a] :
    DecidableEq (Except e a)
  | .error x, .error y => decidable_of_iff (x = y) (by simp)
  | .error _, .ok _ => isFalse (fun h => Except.noConfusion h)
  | .ok _, .error _ => isFalse (fun h => Except.noConfusion h)
  | .ok x, .ok y => decidable_of_iff (x = y) (by simp)

/-- Whether an exception escaped `run` (aborting it) rather than `run`
returning normally. -/
def aborted : Except PyErr RunOutput → Bool
  | .error _ => true
  | .ok _ => false

/-- Whether a `log.error` event was recorded. -/
def hasErrorLog : List LogEvent → Bool
  | [] => false
  | .error _ :: _ => true
  | .info _ :: rest => hasErrorLog rest

/-- The `log.info` message of line 108. -/
def foundMsg (n : Nat) : LogEvent :=
  .info ("Found " ++ toString n ++ " playlist(s) in supplied directory.")

/-- The `log.info` message of line 118. -/
def matchMsg (n : Nat) : LogEvent :=
  .info (toString n ++ " playlist(s) match supplied filter.")

/-- The playlists the input branch actually parses (lines 113-121): the
discovered and extension-filtered candidates restricted to those whose name
appears in the list returned by `name_filter.filter_list`. -/
def inputCandidates (matcher : String → String → Bool)
    (settings_dict : SettingsDict) (fs : Option (List Entry)) : List Candidate :=
  let playlists :=
    discoverFiltered settings_dict.recursive (normPath settings_dict.dir) fs
  let filter_titles :=
    filter_list matcher (playlists.map (fun c => c.name)) settings_dict.filter
  playlists.filter (fun c => filter_titles.contains c.name)

/-- The embedding of `run` (lines 50-149).  `fs` is the directory named by
`settings_dict["dir"]` (after normalization), or `none` when that directory
cannot be listed or walked.  `matcher` stands for the external regex matcher
used by `name_filter.filter_list`. -/
def run (matcher : String → String → Bool) (settings_dict : SettingsDict)
    (component : String) (fs : Option (List Entry)) : Except PyErr RunOutput :=
  let path := normPath settings_dict.dir
  let disc := discoverCandidates settings_dict.recursive path fs
  let playlists := extFilter disc.1
  let log1 := disc.2 ++ [foundMsg playlists.length]
  if component = "inputs" then
    let filter_titles :=
      filter_list matcher (playlists.map (fun c => c.name)) settings_dict.filter
    let log2 := log1 ++ [matchMsg filter_titles.length]
    let playlists := playlists.filter (fun c => filter_titles.contains c.name)
    match processPlaylists fs path playlists with
    | .error e => .error e
    | .ok entries => .ok ⟨fs, log2, some entries⟩
  else
    .ok ⟨fs, log1, none⟩

/-! ## Output-side writer (described but not implemented in the source) -/

mutual

/-- Whether every regular file in a subtree has a `/`-free name (true of any
real directory tree; needed to relate a file's extension to its path's). -/
def nameOkE : Entry → Bool
  | .file n _ => !(n.data.contains '/')
  | .dir _ sub => namesOk sub

/-- The conjunction of `nameOkE` over a whole listing. -/
def namesOk : List Entry → Bool
  | [] => true
  | e :: rest => nameOkE e && namesOk rest

end

mutual

/-- The number of regular files with a supported extension contributed by
one entry, at any depth. -/
def countE : Entry → Nat
  | .file n _ => if supported_playlist_extensions.contains (extOf n) then 1 else 0
  | .dir _ sub => countDeep sub

/-- The number of regular files with a supported extension at any depth
under a listing. -/
def countDeep : List Entry → Nat
  | [] => 0
  | e :: rest => countE e + countDeep rest

end

/-- The number of immediate regular files with a supported extension. -/
def countImmediate : List Entry → Nat
  | [] => 0
  | .file n _ :: rest =>
      (if supported_playlist_extensions.contains (extOf n) then 1 else 0)
        + countImmediate rest
  | .dir _ _ :: rest => countImmediate rest

/-- The supported-file count an entry contributes to the walk strictly below
the top directory (files contribute nothing at this stage — they were counted
with their own directory). -/
def countWalkE : Entry → Nat
  | .file _ _ => 0
  | .dir _ sub => countDeep sub

/-- The supported-file count contributed by the subdirectories of a listing. -/
def countDirsDeep : List Entry → Nat
  | [] => 0
  | e :: rest => countWalkE e + countDirsDeep rest

/-- Whether every immediate subdirectory has a `/`-free name without a
supported extension (the claim's premise that only regular files carry
supported extensions). -/
def dirsUnsupported : List Entry → Bool
  | [] => true
  | .file _ _ :: rest => dirsUnsupported rest
  | .dir n _ :: rest =>
      (!(n.data.contains '/')
        && !(supported_playlist_extensions.contains (extOf n)))
        && dirsUnsupported rest

/-! ## Concrete fixtures -/

/-- The contents of `Top.csv` in the spec's concrete scenario. -/
def topCsvContent : String :=
  "Queen,Bohemian Rhapsody,A Night at the Opera,GBUM71029604\nABBA,Dancing Queen,Arrival,SEAB89800001"

/-- The `/pl` directory of the spec's concrete scenario. -/
def topFs : Option (List Entry) :=
  some [.file "Top.csv" (some topCsvContent)]

/-- A playlist file whose middle row has a single column. -/
def badRowContent : String :=
  "A,T,Al,ISRC1\nbadrow\nB,T2,Al2,ISRC2"

/-- A directory holding only the malformed-row playlist file. -/
def badRowFs : Option (List Entry) :=
  some [.file "Top.csv" (some badRowContent)]

/-- A directory with one readable playlist file followed by one that cannot
be opened. -/
def unreadableFs : Option (List Entry) :=
  some [.file "A.csv" (some "A,T,Al,ISRC1"), .file "B.csv" none]

/-- A small directory tree: two supported files at depth, two unsupported
entries. -/
def demoTree : List Entry :=
  [.file "a.csv" (some ""), .file "b.txt" (some ""),
   .dir "sub" [.file "c.csv" (some ""), .dir "d2" [.file "e.csv" (some "")]],
   .dir "odd" [.file "f.txt" (some "")]]

/-! ## Helper lemmas -/

theorem dropWhile_replicate_prepend {p : Char → Bool} {c : Char} (hp : p c = true) (k : Nat) (l : List Char) :
    (List.replicate k c ++ l).dropWhile p = l.dropWhile p := by
  induction k with
  | zero => simp
  | succ k ih => simp [List.replicate_succ, List.dropWhile_cons, hp, ih]

theorem dropWhile_of_head_false {p : Char → Bool} {l : List Char} (h : ∀ x, l.head? = some x → p x = false) :
    l.dropWhile p = l := by
  cases l with
  | nil => rfl
  | cons x xs => simp [List.dropWhile_cons, h x rfl]

theorem head_replicate_append {u : List Char} {c d : Char} (k : Nat)
    (hu : ∀ x, u.head? = some x → (x == c) = false) (hdc : (d == c) = false) :
    ∀ x, (List.replicate k d ++ u).head? = some x → (x == c) = false := by
  cases k with
  | zero => simpa using hu
  | succ k =>
      intro x hx
      simp [List.replicate_succ] at hx
      rw [← hx]
      exact hdc

theorem pyRstrip_strip {u : List Char} {c : Char} (k : Nat)
    (hu : ∀ x, u.head? = some x → (x == c) = false) :
    pyRstrip (String.mk ((List.replicate k c ++ u).reverse)) c = String.mk u.reverse := by
  unfold pyRstrip
  have hdata : (String.mk ((List.replicate k c ++ u).reverse)).data
      = (List.replicate k c ++ u).reverse := rfl
  rw [hdata, List.reverse_reverse, dropWhile_replicate_prepend (by simp) k u,
    dropWhile_of_head_false hu]

/-! ## Claim C9 (path normalization) -/

/-- C9 counterexample: the claim says all trailing separators of both
conventions are stripped in any mixed order, but `"pl/\\"` (a slash then a
backslash) normalizes to `"pl/"`, which still ends in a separator. -/
theorem claim_C9_counterexample :
    normPath "pl/\\" = "pl/" ∧ normPath "pl/\\" ≠ "pl"
      ∧ ("pl/" : String).data.getLast? = some '/' := by
  refine ⟨by decide, by decide, by decide⟩

/-- C9 (amended): the normalization strips all trailing forward slashes and
then all trailing backslashes, so a trailing run of backslashes followed by a
trailing run of forward slashes is removed entirely; mixed runs beyond that
one pattern are not (see the counterexample). -/
theorem claim_C9_amended (b : String) (m n : Nat)
    (h1 : b.data.getLast? ≠ some '/') (h2 : b.data.getLast? ≠ some '\\') :
    normPath (String.mk (b.data ++ List.replicate m '\\' ++ List.replicate n '/')) = b := by
  have hb1 : ∀ x, b.data.reverse.head? = some x → (x == '/') = false := by
    intro x hx
    rw [List.head?_reverse] at hx
    have : x ≠ '/' := fun he => h1 (he ▸ hx)
    simp [this]
  have hb2 : ∀ x, b.data.reverse.head? = some x → (x == '\\') = false := by
    intro x hx
    rw [List.head?_reverse] at hx
    have : x ≠ '\\' := fun he => h2 (he ▸ hx)
    simp [this]
  have hmid : ∀ x, (List.replicate m '\\' ++ b.data.reverse).head? = some x → (x == '/') = false :=
    head_replicate_append m hb1 (by decide)
  have e1 : b.data ++ List.replicate m '\\' ++ List.replicate n '/'
      = (List.replicate n '/' ++ (List.replicate m '\\' ++ b.data.reverse)).reverse := by
    simp [List.reverse_append, List.reverse_replicate, List.append_assoc]
  unfold normPath
  rw [e1, pyRstrip_strip n hmid, pyRstrip_strip m hb2, List.reverse_reverse]

/-- C9 witness for the amended statement: `"pl\\\\///"` (base `"pl"`, two
backslashes, three slashes) normalizes to `"pl"`. -/
theorem claim_C9_witness :
    normPath (String.mk (("pl" : String).data ++ List.replicate 2 '\\' ++ List.replicate 3 '/')) = "pl" :=
  claim_C9_amended "pl" 2 3 (by decide) (by decide)

/-! ## Claim C1 (concrete input scenario) -/

/-- C1: with `/pl` holding exactly `Top.csv` containing the two Queen/ABBA
rows, recursive "No" and an empty filter, the input run returns exactly one
PlaylistEntry named "Top" with those two songs in file order, the four
fields mapped from columns 0-3.  (Holds for every regex matcher, since the
empty pattern bypasses it.) -/
theorem claim_C1_concrete_scenario (m : String → String → Bool) :
    run m ⟨"/pl", "No", ""⟩ "inputs" topFs =
      .ok ⟨topFs, [foundMsg 1, matchMsg 1],
        some [⟨"Top", [],
          [⟨"Queen", "Bohemian Rhapsody", "A Night at the Opera", "GBUM71029604"⟩,
           ⟨"ABBA", "Dancing Queen", "Arrival", "SEAB89800001"⟩]⟩]⟩ := by
  with_unfolding_all rfl

/-! ## Claim C8 (extension-filter invariant) -/

/-- C8: every candidate surviving the extension filter has a path whose
final extension is in the supported set; `discoverFiltered` is the
discovery-plus-filter pipeline `run` executes for both component roles and
both recursion modes. -/
theorem claim_C8_ext_invariant (recursive path : String)
    (fs : Option (List Entry)) (c : Candidate)
    (h : c ∈ discoverFiltered recursive path fs) :
    supported_playlist_extensions.contains (extOf c.path) = true := by
  unfold discoverFiltered extFilter at h
  exact (List.mem_filter.mp h).2

/-- C8 witness: the lone candidate of the concrete scenario. -/
theorem claim_C8_witness :
    supported_playlist_extensions.contains (extOf "/pl/Top.csv") = true :=
  claim_C8_ext_invariant "No" "/pl" topFs ⟨"Top", "/pl/Top.csv"⟩ (by decide)

/-! ## Claim C10 (non-input roles have no effect) -/

/-- C10: for any component other than "inputs", `run` performs no filesystem
mutation (the filesystem state it finishes with is the one it was given) and
falls off the end of the function, returning Python `None` after only the
discovery logging. -/
theorem claim_C10_outputs_frame (m : String → String → Bool)
    (sd : SettingsDict) (component : String) (fs : Option (List Entry))
    (h : component ≠ "inputs") :
    run m sd component fs =
      .ok ⟨fs,
        (discoverCandidates sd.recursive (normPath sd.dir) fs).2
          ++ [foundMsg (discoverFiltered sd.recursive (normPath sd.dir) fs).length],
        none⟩ := by
  unfold run
  rw [if_neg h]
  rfl

/-- C10 witness: an outputs-role run over the concrete scenario directory
returns `None` and leaves the filesystem untouched. -/
theorem claim_C10_witness :
    run (fun _ _ => true) ⟨"/pl", "No", ""⟩ "outputs" topFs =
      .ok ⟨topFs, [foundMsg 1], none⟩ := by
  have h := claim_C10_outputs_frame (fun _ _ => true) ⟨"/pl", "No", ""⟩
    "outputs" topFs (by decide)
  exact h.trans (by decide)

/-! ## Claim C5 (unlistable directory) -/

/-- C5 counterexample: in recursive mode with an unlistable directory the
run yields zero playlists and does not abort, but — contrary to the claim —
no error is logged, because `os.walk` silently swallows the failure. -/
theorem claim_C5_counterexample :
    run (fun _ _ => true) ⟨"/pl", "Yes", ""⟩ "inputs" none =
      .ok ⟨none, [foundMsg 0, matchMsg 0], some []⟩
    ∧ hasErrorLog [foundMsg 0, matchMsg 0] = false :=
  ⟨by decide, by decide⟩

/-- C5 (amended): when the configured directory cannot be listed or walked,
the candidate list is empty and the run never aborts, in both recursion
modes and for every component role; but the error is logged only in
non-recursive mode (`os.listdir` raises into the `except` clause), while in
recursive mode `os.walk` suppresses the failure and nothing is logged. -/
theorem claim_C5_amended (m : String → String → Bool) (d f component : String) :
    run m ⟨d, "Yes", f⟩ component none =
      .ok ⟨none,
        if component = "inputs" then [foundMsg 0, matchMsg 0] else [foundMsg 0],
        if component = "inputs" then some [] else none⟩
    ∧ run m ⟨d, "No", f⟩ component none =
      .ok ⟨none,
        LogEvent.error "listdir failed"
          :: (if component = "inputs" then [foundMsg 0, matchMsg 0] else [foundMsg 0]),
        if component = "inputs" then some [] else none⟩
    ∧ hasErrorLog
        (if component = "inputs" then [foundMsg 0, matchMsg 0] else [foundMsg 0]) = false
    ∧ hasErrorLog
        (LogEvent.error "listdir failed"
          :: (if component = "inputs" then [foundMsg 0, matchMsg 0] else [foundMsg 0])) = true
    ∧ discoverFiltered "Yes" (normPath d) none = []
    ∧ discoverFiltered "No" (normPath d) none = [] := by
  have hfl : filter_list m ([] : List String) f = [] := by
    unfold filter_list
    split <;> rfl
  by_cases hc : component = "inputs" <;>
    refine ⟨?_, ?_, ?_, ?_, rfl, rfl⟩ <;>
      simp [run, hc, discoverCandidates, extFilter, hfl, processPlaylists,
        hasErrorLog, foundMsg, matchMsg] <;>
    try rfl

/-! ## Except-monad reduction helpers -/

theorem exBind_ok {α β : Type} (b : α) (g : α → Except PyErr β) :
    (Except.ok b >>= g) = g b := rfl

theorem exBind_err {α β : Type} (e : PyErr) (g : α → Except PyErr β) :
    ((Except.error e : Except PyErr α) >>= g) = .error e := rfl

theorem exMap_ok {α β : Type} (b : α) (g : α → β) :
    (Except.ok b : Except PyErr α).map g = .ok (g b) := rfl

theorem exMap_err {α β : Type} (e : PyErr) (g : α → β) :
    (Except.error e : Except PyErr α).map g = .error e := rfl

theorem exPure_eq_ok {α : Type} (a : α) :
    (pure a : Except PyErr α) = .ok a := rfl

/-- Success of `mapM` over `Except` means success on each element. -/
theorem mapM_ok_mem {α β : Type} (f : α → Except PyErr β) :
    ∀ (cs : List α) (l : List β), cs.mapM f = .ok l → ∀ c ∈ cs, ∃ y, f c = .ok y := by
  intro cs
  induction cs with
  | nil => simp
  | cons a as ih =>
      intro l h c hc
      rw [List.mapM_cons] at h
      cases hfa : f a with
      | error e =>
          simp only [hfa, exBind_err] at h
          exact absurd h (by simp)
      | ok b =>
          simp only [hfa, exBind_ok] at h
          cases hmas : as.mapM f with
          | error e =>
              simp only [hmas, exBind_err] at h
              exact absurd h (by simp)
          | ok bs =>
              rcases List.mem_cons.mp hc with rfl | hcm
              · exact ⟨b, hfa⟩
              · exact ih bs hmas c hcm

/-- A row with fewer than four columns makes the row loop raise. -/
theorem parseSongRow_short (row : List (List Char)) (h : row.length < 4) :
    parseSongRow row = .error .indexError := by
  rcases row with _ | ⟨a, _ | ⟨t, _ | ⟨al, _ | ⟨i, rest⟩⟩⟩⟩
  · rfl
  · rfl
  · rfl
  · rfl
  · simp at h
    omega

/-- A successfully processed playlist keeps its candidate's name. -/
theorem processOne_ok_name {fs : Option (List Entry)} {root : String}
    {c : Candidate} {e : PlaylistEntry}
    (h : processOne fs root c = .ok e) : e.name = c.name := by
  unfold processOne at h
  cases ho : openFile fs root c.path with
  | none =>
      rw [ho] at h
      exact absurd h (by simp)
  | some oc =>
      cases oc with
      | none =>
          rw [ho] at h
          exact absurd h (by simp)
      | some content =>
          rw [ho] at h
          cases hp : parseFileSongs content with
          | error e' =>
              simp only [hp, exMap_err] at h
              exact absurd h (by simp)
          | ok songs =>
              simp only [hp, exMap_ok] at h
              cases h
              rfl

/-- The input branch of `run`, written as the processing of
`inputCandidates` (definitional restatement used by the later proofs). -/
theorem runInputsEq (m : String → String → Bool) (sd : SettingsDict)
    (fs : Option (List Entry)) :
    run m sd "inputs" fs =
      match processPlaylists fs (normPath sd.dir) (inputCandidates m sd fs) with
      | .error e => .error e
      | .ok entries =>
          .ok ⟨fs,
            (discoverCandidates sd.recursive (normPath sd.dir) fs).2
              ++ [foundMsg (discoverFiltered sd.recursive (normPath sd.dir) fs).length]
              ++ [matchMsg (filter_list m
                    ((discoverFiltered sd.recursive (normPath sd.dir) fs).map (fun c => c.name))
                    sd.filter).length],
            some entries⟩ := rfl

/-! ## Claim C2 (malformed rows) -/

/-- C2 counterexample: the file with rows `A,T,Al,ISRC1` / `badrow` /
`B,T2,Al2,ISRC2` does not yield two SongRecords — the unguarded
`songRow[1]` raises `IndexError` and the whole run aborts. -/
theorem claim_C2_counterexample :
    run (fun _ _ => true) ⟨"/pl", "No", ""⟩ "inputs" badRowFs = .error .indexError
    ∧ aborted (run (fun _ _ => true) ⟨"/pl", "No", ""⟩ "inputs" badRowFs) = true :=
  ⟨by decide, by decide⟩

/-- C2 (amended): a row with fewer than 4 columns in any playlist file the
input role processes is not logged and skipped — the positional extraction
raises an uncaught `IndexError`, so the run aborts and returns nothing. -/
theorem claim_C2_amended (m : String → String → Bool) (sd : SettingsDict)
    (fs : Option (List Entry)) (c : Candidate) (content : String)
    (h1 : c ∈ inputCandidates m sd fs)
    (h2 : openFile fs (normPath sd.dir) c.path = some (some content))
    (h3 : ∃ row ∈ csvRows content, row.length < 4) :
    aborted (run m sd "inputs" fs) = true := by
  rw [runInputsEq]
  cases hp : processPlaylists fs (normPath sd.dir) (inputCandidates m sd fs) with
  | error e => rfl
  | ok entries =>
      exfalso
      obtain ⟨y, hy⟩ := mapM_ok_mem _ _ _ hp c h1
      unfold processOne at hy
      rw [h2] at hy
      obtain ⟨row, hrow, hlen⟩ := h3
      cases hps : parseFileSongs content with
      | error e' =>
          simp only [hps, exMap_err] at hy
          exact Except.noConfusion hy
      | ok songs =>
          obtain ⟨y', hy'⟩ := mapM_ok_mem _ _ _ hps row hrow
          rw [parseSongRow_short _ hlen] at hy'
          exact Except.noConfusion hy'

/-- C2 witness: the malformed-row directory instantiates the amended claim. -/
theorem claim_C2_witness :
    aborted (run (fun _ _ => true) ⟨"/pl", "No", ""⟩ "inputs" badRowFs) = true :=
  claim_C2_amended (fun _ _ => true) ⟨"/pl", "No", ""⟩ badRowFs
    ⟨"Top", "/pl/Top.csv"⟩ badRowContent (by decide) (by decide) (by decide)

/-! ## Claim C4 (unopenable playlist files) -/

/-- C4 counterexample: with `A.csv` readable and `B.csv` unopenable, the run
does not log-and-exclude `B.csv` — the uncaught open failure aborts the
whole run, discarding `A.csv`'s entry too. -/
theorem claim_C4_counterexample :
    run (fun _ _ => true) ⟨"/pl", "No", ""⟩ "inputs" unreadableFs
      = .error (.ioError "/pl/B.csv")
    ∧ aborted (run (fun _ _ => true) ⟨"/pl", "No", ""⟩ "inputs" unreadableFs) = true :=
  ⟨by decide, by decide⟩

/-- C4 (amended): a playlist file that fails to open (missing, unreadable,
bad encoding) is not logged and excluded — the uncaught exception aborts the
whole input run, so no playlists at all are returned. -/
theorem claim_C4_amended (m : String → String → Bool) (sd : SettingsDict)
    (fs : Option (List Entry)) (c : Candidate)
    (h1 : c ∈ inputCandidates m sd fs)
    (h2 : openFile fs (normPath sd.dir) c.path = none
      ∨ openFile fs (normPath sd.dir) c.path = some none) :
    aborted (run m sd "inputs" fs) = true := by
  rw [runInputsEq]
  cases hp : processPlaylists fs (normPath sd.dir) (inputCandidates m sd fs) with
  | error e => rfl
  | ok entries =>
      exfalso
      obtain ⟨y, hy⟩ := mapM_ok_mem _ _ _ hp c h1
      unfold processOne at hy
      rcases h2 with h2 | h2 <;> rw [h2] at hy <;> exact Except.noConfusion hy

/-- C4 witness: the unreadable-file directory instantiates the amended
claim. -/
theorem claim_C4_witness :
    aborted (run (fun _ _ => true) ⟨"/pl", "No", ""⟩ "inputs" unreadableFs) = true :=
  claim_C4_amended (fun _ _ => true) ⟨"/pl", "No", ""⟩ unreadableFs
    ⟨"B", "/pl/B.csv"⟩ (by decide) (Or.inr (by decide))

/-! ## Claim C7 (name filter correspondence) -/

theorem contains_eq_true_of_mem {α : Type} [BEq α] [LawfulBEq α]
    {l : List α} {x : α} (h : x ∈ l) :
    l.contains x = true :=
  List.elem_iff.mpr h

theorem not_mem_of_contains_false {α : Type} [BEq α] [LawfulBEq α]
    {l : List α} {x : α} (h : l.contains x = false) : x ∉ l := by
  intro hm
  rw [contains_eq_true_of_mem hm] at h
  exact Bool.noConfusion h

theorem contains_filter_eq {names : List String} {q : String → Bool} {x : String}
    (hx : x ∈ names) : (names.filter q).contains x = q x := by
  cases hq : q x with
  | true => exact contains_eq_true_of_mem (List.mem_filter.mpr ⟨hx, hq⟩)
  | false =>
      cases he : (names.filter q).contains x with
      | false => rfl
      | true =>
          have := List.mem_filter.mp (List.elem_iff.mp he)
          rw [this.2] at hq
          exact absurd hq (by simp)

/-- Restricting a name list to membership in its own `filter_list` image
recovers exactly that image. -/
theorem filter_list_restrict (mm : String → String → Bool) (names : List String)
    (pat : String) :
    names.filter (fun x => (filter_list mm names pat).contains x)
      = filter_list mm names pat := by
  unfold filter_list
  split
  · exact List.filter_eq_self.mpr (fun x hx => contains_eq_true_of_mem hx)
  · exact (List.filter_congr (fun x hx => contains_filter_eq hx)).trans rfl

/-- Successful playlist processing preserves the candidate names, in
order. -/
theorem processPlaylists_names {fs : Option (List Entry)} {root : String} :
    ∀ (cs : List Candidate) (l : List PlaylistEntry),
      processPlaylists fs root cs = .ok l →
        l.map (fun e => e.name) = cs.map (fun c => c.name) := by
  intro cs
  induction cs with
  | nil =>
      intro l h
      unfold processPlaylists at h
      rw [List.mapM_nil, exPure_eq_ok] at h
      cases h
      rfl
  | cons a as ih =>
      intro l h
      unfold processPlaylists at h
      rw [List.mapM_cons] at h
      cases hfa : processOne fs root a with
      | error e =>
          simp only [hfa, exBind_err] at h
          exact absurd h (by simp)
      | ok b =>
          simp only [hfa, exBind_ok] at h
          cases hmas : List.mapM (processOne fs root) as with
          | error e =>
              simp only [hmas, exBind_err] at h
              exact absurd h (by simp)
          | ok bs =>
              simp only [hmas, exBind_ok, exPure_eq_ok] at h
              cases h
              have hb := processOne_ok_name hfa
              have hbs := ih bs hmas
              simp [hb, hbs]

/-- The names of the playlists the input branch parses are exactly the
image of the discovered names under `filter_list`. -/
theorem inputCandidates_names (m : String → String → Bool) (sd : SettingsDict)
    (fs : Option (List Entry)) :
    (inputCandidates m sd fs).map (fun c => c.name)
      = filter_list m
          ((discoverFiltered sd.recursive (normPath sd.dir) fs).map (fun c => c.name))
          sd.filter := by
  unfold inputCandidates
  rw [← filter_list_restrict m
    ((discoverFiltered sd.recursive (normPath sd.dir) fs).map (fun c => c.name)) sd.filter]
  rw [List.filter_map]
  rfl

/-- C7: the names of the PlaylistEntries an input run returns are exactly
the subset of discovered candidate names returned by the name-filter
collaborator; an empty pattern yields the full discovered set. -/
theorem claim_C7_name_filter (m : String → String → Bool) (sd : SettingsDict)
    (fs : Option (List Entry)) (out : RunOutput)
    (h : run m sd "inputs" fs = .ok out) :
    out.result.isSome = true
    ∧ (out.result.getD []).map (fun e => e.name)
        = filter_list m
            ((discoverFiltered sd.recursive (normPath sd.dir) fs).map (fun c => c.name))
            sd.filter
    ∧ (sd.filter = "" →
        (out.result.getD []).map (fun e => e.name)
          = (discoverFiltered sd.recursive (normPath sd.dir) fs).map (fun c => c.name)) := by
  rw [runInputsEq] at h
  cases hp : processPlaylists fs (normPath sd.dir) (inputCandidates m sd fs) with
  | error e =>
      rw [hp] at h
      exact absurd h (by simp)
  | ok entries =>
      rw [hp] at h
      cases h
      have hnames : entries.map (fun e => e.name)
          = filter_list m
              ((discoverFiltered sd.recursive (normPath sd.dir) fs).map (fun c => c.name))
              sd.filter :=
        (processPlaylists_names _ _ hp).trans (inputCandidates_names m sd fs)
      refine ⟨rfl, hnames, fun hpat => ?_⟩
      show entries.map (fun e => e.name)
        = (discoverFiltered sd.recursive (normPath sd.dir) fs).map (fun c => c.name)
      rw [hnames, hpat]
      unfold filter_list
      rw [if_pos rfl]

/-- C7 witness: the concrete scenario's returned names equal the
filter-collaborator image of the discovered names. -/
theorem claim_C7_witness :
    (some [(⟨"Top", [],
        [⟨"Queen", "Bohemian Rhapsody", "A Night at the Opera", "GBUM71029604"⟩,
         ⟨"ABBA", "Dancing Queen", "Arrival", "SEAB89800001"⟩]⟩ : PlaylistEntry)] :
        Option (List PlaylistEntry)).isSome = true
    ∧ ((some [(⟨"Top", [],
        [⟨"Queen", "Bohemian Rhapsody", "A Night at the Opera", "GBUM71029604"⟩,
         ⟨"ABBA", "Dancing Queen", "Arrival", "SEAB89800001"⟩]⟩ : PlaylistEntry)] :
        Option (List PlaylistEntry)).getD []).map (fun e => e.name)
        = filter_list (fun _ _ => true)
            ((discoverFiltered "No" (normPath "/pl") topFs).map (fun c => c.name)) ""
    ∧ ("" = "" →
        ((some [(⟨"Top", [],
          [⟨"Queen", "Bohemian Rhapsody", "A Night at the Opera", "GBUM71029604"⟩,
           ⟨"ABBA", "Dancing Queen", "Arrival", "SEAB89800001"⟩]⟩ : PlaylistEntry)] :
          Option (List PlaylistEntry)).getD []).map (fun e => e.name)
          = (discoverFiltered "No" (normPath "/pl") topFs).map (fun c => c.name)) := by
  have h := claim_C7_name_filter (fun _ _ => true) ⟨"/pl", "No", ""⟩ topFs
    ⟨topFs, [foundMsg 1, matchMsg 1],
      some [⟨"Top", [],
        [⟨"Queen", "Bohemian Rhapsody", "A Night at the Opera", "GBUM71029604"⟩,
         ⟨"ABBA", "Dancing Queen", "Arrival", "SEAB89800001"⟩]⟩]⟩ (by decide)
  exact h

/-! ## Claim C3 (write/read round trip) -/

theorem takeWhile_all {p : Char → Bool} : ∀ (xs : List Char),
    (∀ x ∈ xs, p x = true) → xs.takeWhile p = xs := by
  intro xs
  induction xs with
  | nil => intro _; rfl
  | cons x xs ih =>
      intro h
      simp only [List.takeWhile_cons, h x (List.mem_cons_self x xs), if_true]
      rw [ih (fun u hu => h u (List.mem_cons_of_mem x hu))]

theorem takeWhile_append_stop {p : Char → Bool} : ∀ (xs : List Char) (y : Char) (ys : List Char),
    (∀ x ∈ xs, p x = true) → p y = false → (xs ++ y :: ys).takeWhile p = xs := by
  intro xs y ys
  induction xs with
  | nil =>
      intro _ hy
      show (y :: ys).takeWhile p = []
      simp [List.takeWhile_cons, hy]
  | cons x xs ih =>
      intro h hy
      show (x :: (xs ++ y :: ys)).takeWhile p = x :: xs
      rw [List.takeWhile_cons, if_pos (h x (List.mem_cons_self x xs)),
        ih (fun u hu => h u (List.mem_cons_of_mem x hu)) hy]

/-- Joining a directory prefix onto a slash-free filename does not change
the extension `os.path.splitext` extracts. -/
theorem extOf_pjoin {root n : String} (h : n.data.contains '/' = false) :
    extOf (pjoin root n) = extOf n := by
  have hmem : '/' ∉ n.data := not_mem_of_contains_false h
  have hall : ∀ x ∈ n.data.reverse, (x != '/') = true := by
    intro x hx
    have : x ∈ n.data := List.mem_reverse.mp hx
    have hne : x ≠ '/' := fun he => hmem (he ▸ this)
    simp [hne]
  have hdata : (pjoin root n).data = (root.data ++ ['/']) ++ n.data := by
    show (root ++ "/" ++ n).data = (root.data ++ ['/']) ++ n.data
    rw [String.data_append, String.data_append]
  unfold extOf
  rw [hdata, List.reverse_append, List.reverse_append]
  have hsh : (['/'] : List Char).reverse = ['/'] := rfl
  rw [hsh]
  show String.mk (extRevBase ((n.data.reverse ++ '/' :: root.data.reverse).takeWhile
      (fun c => c != '/'))) = String.mk (extRevBase (n.data.reverse.takeWhile (fun c => c != '/')))
  rw [takeWhile_append_stop n.data.reverse '/' root.data.reverse hall (by decide),
    takeWhile_all n.data.reverse hall]

theorem extOf_mkCand_path {root n : String} (h : n.data.contains '/' = false) :
    extOf (mkCand root n).path = extOf n := by
  show extOf (pjoin root n) = extOf n
  exact extOf_pjoin h

theorem listdirCands_cons (root : String) (e : Entry) (rest : List Entry) :
    listdirCands root (e :: rest) = mkCand root e.name :: listdirCands root rest := rfl

theorem nameOkE_file_contains {n : String} {c : Option String}
    (h : nameOkE (.file n c) = true) : n.data.contains '/' = false := by
  unfold nameOkE at h
  simpa using h

/-- The deep count `countDeep` splits into the immediate files and the subdirectory
contributions. -/
theorem countDeep_eq : ∀ (es : List Entry),
    countDeep es = countImmediate es + countDirsDeep es := by
  intro es
  induction es with
  | nil => rfl
  | cons e rest ih =>
      cases e with
      | file n c =>
          simp only [countDeep, countE, countImmediate, countWalkE, countDirsDeep, ih]
          omega
      | dir n sub =>
          simp only [countDeep, countE, countImmediate, countWalkE, countDirsDeep, ih]
          omega

/-- The immediate files of a listing, filtered by extension, are counted by
`countImmediate`. -/
theorem filesMap_filter_count (root : String) : ∀ (es : List Entry), namesOk es = true →
    (((filesOf es).map (fun f => mkCand root f.1)).filter
        (fun c => supported_playlist_extensions.contains (extOf c.path))).length
      = countImmediate es := by
  intro es
  induction es with
  | nil => intro _; rfl
  | cons e rest ih =>
      intro h
      unfold namesOk at h
      rw [Bool.and_eq_true] at h
      cases e with
      | file n cnt =>
          have hne := nameOkE_file_contains h.1
          have hih := ih h.2
          simp only [filesOf, List.map_cons, List.filter_cons, extOf_mkCand_path hne]
          cases hs : supported_playlist_extensions.contains (extOf n) with
          | true =>
              simp only [hs, if_true, List.length_cons, hih, countImmediate]
              omega
          | false =>
              simp only [hs, Bool.false_eq_true, if_false, hih, countImmediate]
              omega
      | dir n sub =>
          simp only [filesOf, countImmediate]
          exact ih h.2

mutual

theorem entryWalk_filter_count : ∀ (root : String) (e : Entry), nameOkE e = true →
    ((entryWalk root e).filter
        (fun c => supported_playlist_extensions.contains (extOf c.path))).length
      = countWalkE e
  | _, .file _ _, _ => rfl
  | root, .dir n sub, h => by
      have hsub : namesOk sub = true := h
      have hf := filesMap_filter_count (pjoin root n) sub hsub
      have hw := walkSub_filter_count (pjoin root n) sub hsub
      show (((filesOf sub).map (fun f => mkCand (pjoin root n) f.1)
          ++ walkSub (pjoin root n) sub).filter _).length = countDeep sub
      rw [List.filter_append, List.length_append, hf, hw, countDeep_eq]

theorem walkSub_filter_count : ∀ (root : String) (es : List Entry), namesOk es = true →
    ((walkSub root es).filter
        (fun c => supported_playlist_extensions.contains (extOf c.path))).length
      = countDirsDeep es
  | _, [], _ => rfl
  | root, e :: rest, h => by
      have h' : nameOkE e = true ∧ namesOk rest = true := by
        unfold namesOk at h
        rw [Bool.and_eq_true] at h
        exact h
      have he := entryWalk_filter_count root e h'.1
      have hr := walkSub_filter_count root rest h'.2
      show ((entryWalk root e ++ walkSub root rest).filter _).length
        = countWalkE e + countDirsDeep rest
      rw [List.filter_append, List.length_append, he, hr]

end

/-- Non-recursive discovery (which lists immediate files and directories
alike), filtered by extension, is counted by `countImmediate` when no
immediate subdirectory carries a supported extension. -/
theorem listdir_filter_count (root : String) : ∀ (es : List Entry),
    namesOk es = true → dirsUnsupported es = true →
    ((listdirCands root es).filter
        (fun c => supported_playlist_extensions.contains (extOf c.path))).length
      = countImmediate es := by
  intro es
  induction es with
  | nil => intro _ _; rfl
  | cons e rest ih =>
      intro h1 h2
      unfold namesOk at h1
      rw [Bool.and_eq_true] at h1
      cases e with
      | file n cnt =>
          have hne := nameOkE_file_contains h1.1
          have h2' : dirsUnsupported rest = true := h2
          have hih := ih h1.2 h2'
          simp only [listdirCands_cons, Entry.name, List.filter_cons,
            extOf_mkCand_path hne]
          cases hs : supported_playlist_extensions.contains (extOf n) with
          | true =>
              simp only [hs, if_true, List.length_cons, hih, countImmediate]
              omega
          | false =>
              simp only [hs, Bool.false_eq_true, if_false, hih, countImmediate]
              omega
      | dir n sub =>
          unfold dirsUnsupported at h2
          rw [Bool.and_eq_true, Bool.and_eq_true] at h2
          have hne : n.data.contains '/' = false := by simpa using h2.1.1
          have hns : supported_playlist_extensions.contains (extOf n) = false := by
            simpa using h2.1.2
          have hih := ih h1.2 h2.2
          simp only [listdirCands_cons, Entry.name, List.filter_cons,
            extOf_mkCand_path hne, hns, Bool.false_eq_true, if_false, countImmediate]
          exact hih

/-- C6: with every regular file `/`-free-named, recursive discovery followed
by the extension filter yields exactly the number of supported files at any
depth of the tree (unsupported entries never contribute), and — when no
immediate subdirectory name carries a supported extension — non-recursive
discovery yields exactly the number of immediate supported files (it never
descends into subdirectories). -/
theorem claim_C6_discovery_counts (root : String) (es : List Entry)
    (h : namesOk es = true) :
    (discoverFiltered "Yes" root (some es)).length = countDeep es
    ∧ (dirsUnsupported es = true →
        (discoverFiltered "No" root (some es)).length = countImmediate es) := by
  constructor
  · show (extFilter (walkCands root es)).length = countDeep es
    unfold extFilter walkCands
    rw [List.filter_append, List.length_append, filesMap_filter_count root es h,
      walkSub_filter_count root es h, countDeep_eq]
  · intro h2
    show (extFilter (listdirCands root es)).length = countImmediate es
    exact listdir_filter_count root es h h2

/-- C6 witness: the demo tree has 3 supported files at depth and 1 at the
top level, and discovery counts agree in both modes. -/
theorem claim_C6_witness :
    (discoverFiltered "Yes" "/pl" (some demoTree)).length = countDeep demoTree
    ∧ (discoverFiltered "No" "/pl" (some demoTree)).length = countImmediate demoTree :=
  ⟨(claim_C6_discovery_counts "/pl" demoTree (by decide)).1,
   (claim_C6_discovery_counts "/pl" demoTree (by decide)).2 (by decide)⟩

end UpLocalCsv
